import Mathlib

/-!
Shallow embedding of the WTVB01-485 vibration-sensor monitoring program
(sensor_communication.py, data_collector.py, anomaly_detection.py) and
proofs about its buffer, framing, baseline and anomaly-detection logic.

Conventions: Python `bytes` are lists of `Nat` (each byte < 256 where it
matters), numpy floating-point arithmetic is idealized as exact real
arithmetic over `ℝ`, thresholds and metrics of the detection state machine
are idealized as `ℚ`, and stateful methods are explicit state-passing
functions.
-/

namespace VibMon

variable {α : Type}

namespace DataBuffer

/-- DataBuffer.add (data_collector.py): `self.buffer.append(data)` on a
`deque(maxlen=max_size)`. Appends on the right; when the buffer already
holds `max_size` items the oldest (leftmost) item is evicted. The buffer
contents are modelled as a list, oldest first. -/
def add (maxSize : Nat) (buf : List α) (x : α) : List α :=
  (buf ++ [x]).drop (buf.length + 1 - maxSize)

/-- DataBuffer.get_all: `list(self.buffer)`. -/
def get_all (buf : List α) : List α := buf

/-- Python slice `s[i:]` for an arbitrary (possibly negative) integer start
index: a negative index counts from the right and is clamped to 0, a
non-negative index is clamped to the length. -/
def pySliceFrom (s : List α) (i : Int) : List α :=
  if i < 0 then s.drop ((s.length : Int) + i).toNat else s.drop i.toNat

/-- DataBuffer.get_last_n: `list(self.buffer)[-n:]`. -/
def get_last_n (buf : List α) (n : Nat) : List α :=
  pySliceFrom buf (-(n : Int))

/-- The operations that mutate the buffer contents: `add` and `clear`. -/
inductive Op (α : Type) where
  | add (x : α)
  | clear

/-- Apply one buffer operation. `clear` empties the deque. -/
def applyOp (maxSize : Nat) (buf : List α) : Op α → List α
  | .add x => add maxSize buf x
  | .clear => []

/-- Run a sequence of buffer operations from a starting contents. -/
def runOps (maxSize : Nat) (buf : List α) (ops : List (Op α)) : List α :=
  ops.foldl (applyOp maxSize) buf

/-- Push a list of samples one by one. -/
def addAll (maxSize : Nat) (buf : List α) (xs : List α) : List α :=
  xs.foldl (add maxSize) buf

theorem length_add (maxSize : Nat) (buf : List α) (x : α) :
    (add maxSize buf x).length = min (buf.length + 1) maxSize := by
  simp [add]
  omega

theorem length_runOps_le (maxSize : Nat) :
    ∀ (ops : List (Op α)) (buf : List α), buf.length ≤ maxSize →
      (runOps maxSize buf ops).length ≤ maxSize := by
  intro ops
  induction ops with
  | nil => intro buf h; simpa [runOps] using h
  | cons op rest ih =>
      intro buf h
      have hstep : (applyOp maxSize buf op).length ≤ maxSize := by
        cases op with
        | add x => rw [applyOp, length_add]; omega
        | clear => simp [applyOp]
      simpa [runOps, List.foldl_cons] using ih (applyOp maxSize buf op) hstep

theorem drop_append_left (l₁ l₂ : List α) (j : Nat) (h : j ≤ l₁.length) :
    l₁.drop j ++ l₂ = (l₁ ++ l₂).drop j := by
  rw [List.drop_append_eq_append_drop]
  have hz : j - l₁.length = 0 := by omega
  simp [hz]

theorem addAll_eq (maxSize : Nat) :
    ∀ (xs buf : List α), buf.length ≤ maxSize →
      addAll maxSize buf xs = (buf ++ xs).drop (buf.length + xs.length - maxSize) := by
  intro xs
  induction xs with
  | nil =>
      intro buf h
      have hz : buf.length - maxSize = 0 := by omega
      simp [addAll, hz]
  | cons x rest ih =>
      intro buf h
      have hlen : (add maxSize buf x).length = min (buf.length + 1) maxSize :=
        length_add maxSize buf x
      have hle : (add maxSize buf x).length ≤ maxSize := by omega
      have step : addAll maxSize buf (x :: rest) = addAll maxSize (add maxSize buf x) rest := by
        simp [addAll]
      rw [step, ih (add maxSize buf x) hle]
      have hj : buf.length + 1 - maxSize ≤ (buf ++ [x]).length := by
        have hx : (buf ++ [x]).length = buf.length + 1 := by simp
        omega
      have e1 : add maxSize buf x ++ rest = (buf ++ x :: rest).drop (buf.length + 1 - maxSize) := by
        rw [add, drop_append_left _ _ _ hj]
        simp
      rw [e1, List.drop_drop]
      congr 1
      have hc : (x :: rest).length = rest.length + 1 := by simp
      rw [hlen]
      omega

end DataBuffer

/-- C6: a DataBuffer of capacity `k ≥ 1` holding `k + m` pushed samples
(`m > 0`) has size exactly `k` and `get_all` returns exactly the last `k`
pushed samples in insertion order; moreover after any sequence of
`add`/`clear` operations the size never exceeds the capacity. -/
theorem buffer_eviction_invariant (k m : Nat) (hk : 1 ≤ k) (xs : List α)
    (hm : 0 < m) (hlen : xs.length = k + m) :
    (DataBuffer.addAll k [] xs).length = k ∧
    DataBuffer.get_all (DataBuffer.addAll k [] xs) = xs.drop m ∧
    ∀ (buf : List α) (ops : List (DataBuffer.Op α)), buf.length ≤ k →
      (DataBuffer.runOps k buf ops).length ≤ k := by
  have hcontent : DataBuffer.addAll k [] xs = xs.drop m := by
    rw [DataBuffer.addAll_eq k xs [] (by simp)]
    simp
    congr 1
    omega
  refine ⟨?_, ?_, ?_⟩
  · rw [hcontent]
    simp
    omega
  · rw [DataBuffer.get_all, hcontent]
  · intro buf ops h
    exact DataBuffer.length_runOps_le k ops buf h

theorem buffer_eviction_invariant_witness :
    (DataBuffer.addAll 2 ([] : List Nat) [7, 8, 9]).length = 2 ∧
    DataBuffer.get_all (DataBuffer.addAll 2 ([] : List Nat) [7, 8, 9]) = [8, 9] ∧
    ∀ (buf : List Nat) (ops : List (DataBuffer.Op Nat)), buf.length ≤ 2 →
      (DataBuffer.runOps 2 buf ops).length ≤ 2 := by
  have h := @buffer_eviction_invariant Nat 2 1 (by decide) [7, 8, 9] (by decide) (by decide)
  exact ⟨h.1, h.2.1, h.2.2⟩

/-- C10: `get_last_n` with `n = 0` returns the entire buffer contents in
order (Python `lst[-0:]` is `lst[0:]`), and `get_last_n` with `n` larger
than the current size also returns the entire contents. -/
theorem get_last_n_zero_or_large (buf : List α) (n : Nat) :
    DataBuffer.get_last_n buf 0 = DataBuffer.get_all buf ∧
    (buf.length < n → DataBuffer.get_last_n buf n = DataBuffer.get_all buf) := by
  constructor
  · simp [DataBuffer.get_last_n, DataBuffer.pySliceFrom, DataBuffer.get_all]
  · intro h
    have hn : 0 < n := by omega
    have hneg : (-(n : Int)) < 0 := by
      simp
      omega
    rw [DataBuffer.get_last_n, DataBuffer.pySliceFrom, if_pos hneg]
    have hz : ((buf.length : Int) + -(n : Int)).toNat = 0 := by omega
    simp [hz, DataBuffer.get_all]

theorem get_last_n_zero_or_large_witness :
    DataBuffer.get_last_n [3, 4] 0 = DataBuffer.get_all [3, 4] ∧
    DataBuffer.get_last_n [3, 4] 5 = DataBuffer.get_all [3, 4] := by
  have h := @get_last_n_zero_or_large Nat [3, 4] 5
  exact ⟨h.1, h.2 (by decide)⟩

/-- One iteration of the inner bit loop of CRCCalculator.calculate_crc:
`crc = (crc >> 1) ^ 0xA001` when the low bit is set, else `crc >>= 1`. -/
def crcStep (crc : Nat) : Nat :=
  if crc &&& 1 = 1 then (crc >>> 1) ^^^ 0xA001 else crc >>> 1

/-- Processing one data byte: `crc ^= byte` followed by eight shift steps. -/
def crcByte (crc b : Nat) : Nat := crcStep^[8] (crc ^^^ b)

/-- The 16-bit CRC register value after folding all data bytes over the
seed 0xFFFF. -/
def crcWord (data : List Nat) : Nat := data.foldl crcByte 0xFFFF

/-- CRCCalculator.calculate_crc: the CRC as two little-endian bytes
`[CRC_LOW, CRC_HIGH]`. -/
def calculate_crc (data : List Nat) : List Nat :=
  [crcWord data &&& 0xFF, (crcWord data >>> 8) &&& 0xFF]

/-- CRCCalculator.verify_crc: frames shorter than 3 bytes are rejected;
otherwise the trailing two bytes must equal the CRC recomputed over the
rest of the frame. -/
def verify_crc (data : List Nat) : Bool :=
  if data.length < 3 then false
  else decide (data.drop (data.length - 2) = calculate_crc (data.take (data.length - 2)))

theorem shiftRight_one_xor (x y : Nat) : (x ^^^ y) >>> 1 = (x >>> 1) ^^^ (y >>> 1) := by
  apply Nat.eq_of_testBit_eq
  intro i
  simp [Nat.testBit_shiftRight, Nat.testBit_xor]

theorem and_one_xor (x y : Nat) : (x ^^^ y) &&& 1 = (x &&& 1) ^^^ (y &&& 1) := by
  apply Nat.eq_of_testBit_eq
  intro i
  simp only [Nat.testBit_and, Nat.testBit_xor, Bool.and_xor_distrib_right]

theorem and_one_cases (x : Nat) : x &&& 1 = 0 ∨ x &&& 1 = 1 := by
  rw [Nat.and_one_is_mod]
  omega

theorem xor_xor_cancel (a b c : Nat) : (a ^^^ c) ^^^ (b ^^^ c) = a ^^^ b := by
  apply Nat.eq_of_testBit_eq
  intro i
  simp [Nat.testBit_xor]
  cases a.testBit i <;> cases b.testBit i <;> cases c.testBit i <;> rfl

theorem xor_right_swap (a b c : Nat) : (a ^^^ b) ^^^ c = (a ^^^ c) ^^^ b := by
  rw [Nat.xor_assoc, Nat.xor_comm b c, ← Nat.xor_assoc]

/-- The shift step is GF(2)-linear: it commutes with XOR. -/
theorem crcStep_xor (x y : Nat) : crcStep (x ^^^ y) = crcStep x ^^^ crcStep y := by
  have hxy := and_one_xor x y
  unfold crcStep
  rcases and_one_cases x with hx | hx <;> rcases and_one_cases y with hy | hy <;>
      rw [hx, hy] at hxy <;> simp only [Nat.xor_self, Nat.xor_zero, Nat.zero_xor] at hxy
  · rw [if_neg (by omega), if_neg (by omega), if_neg (by omega), shiftRight_one_xor]
  · rw [if_pos hxy, if_neg (by omega), if_pos hy, shiftRight_one_xor, Nat.xor_assoc]
  · rw [if_pos hxy, if_pos hx, if_neg (by omega), shiftRight_one_xor, xor_right_swap]
  · rw [if_neg (by omega), if_pos hx, if_pos hy, shiftRight_one_xor, xor_xor_cancel]

theorem crcStep_lt (x : Nat) (hx : x < 65536) : crcStep x < 65536 := by
  have h1 : x >>> 1 < 32768 := by
    rw [Nat.shiftRight_eq_div_pow]
    omega
  unfold crcStep
  split
  · have hb : (40961 : Nat) < 2 ^ 16 := by norm_num
    have ha : x >>> 1 < 2 ^ 16 := by
      have : (2 : Nat) ^ 16 = 65536 := by norm_num
      omega
    have := @Nat.xor_lt_two_pow (x >>> 1) 40961 16 ha hb
    have e : (2 : Nat) ^ 16 = 65536 := by norm_num
    omega
  · omega

/-- The shift step has trivial kernel on 16-bit values. -/
theorem crcStep_eq_zero (x : Nat) (hx : x < 65536) (h : crcStep x = 0) : x = 0 := by
  unfold crcStep at h
  rcases and_one_cases x with h1 | h1
  · rw [if_neg (by simp [h1])] at h
    rw [Nat.shiftRight_eq_div_pow] at h
    have hm : x % 2 = 0 := by rw [← Nat.and_one_is_mod]; exact h1
    have hp : (2 : Nat) ^ 1 = 2 := by norm_num
    rw [hp] at h
    omega
  · rw [if_pos h1] at h
    have he : x >>> 1 = 40961 := Nat.xor_eq_zero.mp h
    rw [Nat.shiftRight_eq_div_pow] at he
    have hp : (2 : Nat) ^ 1 = 2 := by norm_num
    rw [hp] at he
    omega

theorem crcStep_injOn (x y : Nat) (hx : x < 65536) (hy : y < 65536)
    (h : crcStep x = crcStep y) : x = y := by
  have hxor : crcStep (x ^^^ y) = 0 := by
    rw [crcStep_xor, h, Nat.xor_self]
  have hb : x ^^^ y < 65536 := by
    have e : (2 : Nat) ^ 16 = 65536 := by norm_num
    have := @Nat.xor_lt_two_pow x y 16 (by omega) (by omega)
    omega
  exact Nat.xor_eq_zero.mp (crcStep_eq_zero _ hb hxor)

theorem crcStep_iter_lt (n x : Nat) (hx : x < 65536) : crcStep^[n] x < 65536 := by
  induction n generalizing x with
  | zero => simpa using hx
  | succ k ih =>
      rw [Function.iterate_succ_apply]
      exact ih _ (crcStep_lt x hx)

theorem crcStep_iter_injOn (n x y : Nat) (hx : x < 65536) (hy : y < 65536)
    (h : crcStep^[n] x = crcStep^[n] y) : x = y := by
  induction n generalizing x y with
  | zero => simpa using h
  | succ k ih =>
      rw [Function.iterate_succ_apply, Function.iterate_succ_apply] at h
      exact crcStep_injOn x y hx hy
        (ih (crcStep x) (crcStep y) (crcStep_lt x hx) (crcStep_lt y hy) h)

theorem crcByte_lt (c b : Nat) (hc : c < 65536) (hb : b < 65536) :
    crcByte c b < 65536 := by
  unfold crcByte
  apply crcStep_iter_lt
  have e : (2 : Nat) ^ 16 = 65536 := by norm_num
  have := @Nat.xor_lt_two_pow c b 16 (by omega) (by omega)
  omega

theorem crcByte_left_injOn (c₁ c₂ b : Nat) (h₁ : c₁ < 65536) (h₂ : c₂ < 65536)
    (hb : b < 65536) (h : crcByte c₁ b = crcByte c₂ b) : c₁ = c₂ := by
  have e : (2 : Nat) ^ 16 = 65536 := by norm_num
  have hx1 : c₁ ^^^ b < 65536 := by
    have := @Nat.xor_lt_two_pow c₁ b 16 (by omega) (by omega); omega
  have hx2 : c₂ ^^^ b < 65536 := by
    have := @Nat.xor_lt_two_pow c₂ b 16 (by omega) (by omega); omega
  have := crcStep_iter_injOn 8 (c₁ ^^^ b) (c₂ ^^^ b) hx1 hx2 h
  exact Nat.xor_left_inj.mp this

theorem crcByte_right_injOn (c b₁ b₂ : Nat) (hc : c < 65536) (h₁ : b₁ < 65536)
    (h₂ : b₂ < 65536) (h : crcByte c b₁ = crcByte c b₂) : b₁ = b₂ := by
  have e : (2 : Nat) ^ 16 = 65536 := by norm_num
  have hx1 : c ^^^ b₁ < 65536 := by
    have := @Nat.xor_lt_two_pow c b₁ 16 (by omega) (by omega); omega
  have hx2 : c ^^^ b₂ < 65536 := by
    have := @Nat.xor_lt_two_pow c b₂ 16 (by omega) (by omega); omega
  have := crcStep_iter_injOn 8 (c ^^^ b₁) (c ^^^ b₂) hx1 hx2 h
  exact Nat.xor_right_inj.mp this

theorem crcFold_lt (s : List Nat) (c : Nat) (hc : c < 65536)
    (hs : ∀ b ∈ s, b < 65536) : s.foldl crcByte c < 65536 := by
  induction s generalizing c with
  | nil => simpa using hc
  | cons b rest ih =>
      rw [List.foldl_cons]
      exact ih (crcByte c b) (crcByte_lt c b hc (hs b (by simp)))
        (fun x hx => hs x (by simp [hx]))

theorem crcFold_injOn (s : List Nat) (c₁ c₂ : Nat) (h₁ : c₁ < 65536)
    (h₂ : c₂ < 65536) (hs : ∀ b ∈ s, b < 65536) (hne : c₁ ≠ c₂) :
    s.foldl crcByte c₁ ≠ s.foldl crcByte c₂ := by
  induction s generalizing c₁ c₂ with
  | nil => simpa using hne
  | cons b rest ih =>
      rw [List.foldl_cons, List.foldl_cons]
      have hb : b < 65536 := hs b (by simp)
      apply ih (crcByte c₁ b) (crcByte c₂ b) (crcByte_lt c₁ b h₁ hb)
        (crcByte_lt c₂ b h₂ hb) (fun x hx => hs x (by simp [hx]))
      intro hcontra
      exact hne (crcByte_left_injOn c₁ c₂ b h₁ h₂ hb hcontra)

theorem crcWord_lt (d : List Nat) (hd : ∀ b ∈ d, b < 65536) : crcWord d < 65536 :=
  crcFold_lt d 65535 (by norm_num) hd

theorem crcWord_append_cons (p s : List Nat) (b : Nat) :
    crcWord (p ++ b :: s) = s.foldl crcByte (crcByte (p.foldl crcByte 65535) b) := by
  simp [crcWord, List.foldl_append]

/-- Changing the byte at one position of a bounded byte list changes the CRC
register value (single-position sensitivity of the CRC state). -/
theorem crcWord_set_ne (m : List Nat) (hm : ∀ b ∈ m, b < 65536) (j : Nat)
    (hj : j < m.length) (b' : Nat) (hb' : b' < 65536) (hne : b' ≠ m[j]) :
    crcWord (m.set j b') ≠ crcWord m := by
  have hdec : m = m.take j ++ m[j] :: m.drop (j + 1) := by
    conv_lhs => rw [← List.take_append_drop j m]
    rw [List.drop_eq_getElem_cons hj]
  have hset : m.set j b' = m.take j ++ b' :: m.drop (j + 1) :=
    List.set_eq_take_cons_drop b' hj
  have hcb : (m.take j).foldl crcByte 65535 < 65536 :=
    crcFold_lt _ _ (by norm_num) (fun x hx => hm x (List.take_subset _ _ hx))
  have hdrops : ∀ x ∈ m.drop (j + 1), x < 65536 :=
    fun x hx => hm x (List.drop_subset _ _ hx)
  have hmj : m[j] < 65536 := hm _ (List.getElem_mem hj)
  have key : crcWord (m.take j ++ b' :: m.drop (j + 1))
      ≠ crcWord (m.take j ++ m[j] :: m.drop (j + 1)) := by
    rw [crcWord_append_cons, crcWord_append_cons]
    apply crcFold_injOn _ _ _ (crcByte_lt _ b' hcb hb') (crcByte_lt _ m[j] hcb hmj) hdrops
    intro hcontra
    exact hne (crcByte_right_injOn _ b' m[j] hcb hb' hmj hcontra)
  rw [← hdec] at key
  rw [hset]
  exact key

/-- Distinct 16-bit CRC register values serialize to distinct byte pairs. -/
theorem calculate_crc_ne_of_word_ne (d₁ d₂ : List Nat) (hw : crcWord d₁ ≠ crcWord d₂)
    (h₁ : crcWord d₁ < 65536) (h₂ : crcWord d₂ < 65536) :
    calculate_crc d₁ ≠ calculate_crc d₂ := by
  intro hc
  unfold calculate_crc at hc
  simp only [List.cons.injEq, and_true] at hc
  obtain ⟨hlow, hhigh⟩ := hc
  have e255 : (255 : Nat) = 2 ^ 8 - 1 := by norm_num
  rw [e255, Nat.and_pow_two_sub_one_eq_mod, Nat.and_pow_two_sub_one_eq_mod] at hlow hhigh
  rw [Nat.shiftRight_eq_div_pow, Nat.shiftRight_eq_div_pow] at hhigh
  have ep : (2 : Nat) ^ 8 = 256 := by norm_num
  rw [ep] at hlow hhigh
  omega

theorem flip_ne (b k : Nat) : b ^^^ (1 <<< k) ≠ b := by
  intro h
  have h0 : b ^^^ (1 <<< k) = b ^^^ 0 := by rw [Nat.xor_zero]; exact h
  have hz : (1 <<< k : Nat) = 0 := Nat.xor_right_inj.mp h0
  rw [Nat.shiftLeft_eq, one_mul] at hz
  exact absurd hz (Nat.pos_iff_ne_zero.mp (Nat.pos_pow_of_pos k (by norm_num)))

theorem flip_lt (b k : Nat) (hb : b < 256) (hk : k < 8) : b ^^^ (1 <<< k) < 256 := by
  have hpow : (1 <<< k : Nat) < 2 ^ 8 := by
    rw [Nat.shiftLeft_eq, one_mul]
    exact Nat.pow_lt_pow_right (by norm_num) hk
  have hb8 : b < 2 ^ 8 := by norm_num at hpow ⊢; omega
  have := @Nat.xor_lt_two_pow b (1 <<< k) 8 hb8 hpow
  norm_num at this
  exact this

/-- C5 (amended): for every nonempty byte message `m`, the frame
`m ++ calculate_crc m` passes `verify_crc`, and flipping any single bit of
any byte of that frame (message bytes or checksum bytes) makes `verify_crc`
return false. (The original claim quantified over every message including
the empty one; the empty message gives a 2-byte frame, which `verify_crc`
rejects as too short rather than accepting.) -/
theorem crc_roundtrip_and_bit_flip (msg : List Nat) (hmsg : msg ≠ [])
    (hbytes : ∀ b ∈ msg, b < 256) (j k : Nat)
    (hj : j < (msg ++ calculate_crc msg).length) (hk : k < 8) :
    verify_crc (msg ++ calculate_crc msg) = true ∧
    verify_crc ((msg ++ calculate_crc msg).set j
      ((msg ++ calculate_crc msg)[j] ^^^ (1 <<< k))) = false := by
  have hml : 0 < msg.length := List.length_pos.mpr hmsg
  have hcl : (calculate_crc msg).length = 2 := by simp [calculate_crc]
  have hlenF : (msg ++ calculate_crc msg).length = msg.length + 2 := by
    simp [hcl]
  have hbytes16 : ∀ b ∈ msg, b < 65536 := fun b hb => by
    have := hbytes b hb
    omega
  constructor
  · rw [verify_crc, if_neg (by omega)]
    have hsub : (msg ++ calculate_crc msg).length - 2 = msg.length := by omega
    rw [hsub, List.take_left, List.drop_left]
    simp
  · rcases Nat.lt_or_ge j msg.length with hcase | hcase
    · -- the flipped bit is in the message region
      have hgj : (msg ++ calculate_crc msg)[j] = msg[j] := List.getElem_append_left hcase
      have hmjb : msg[j] < 256 := hbytes _ (List.getElem_mem hcase)
      set v := (msg ++ calculate_crc msg)[j] ^^^ (1 <<< k) with hv
      have hv' : v = msg[j] ^^^ (1 <<< k) := by rw [hv, hgj]
      have hvb : v < 256 := by rw [hv']; exact flip_lt _ k hmjb hk
      have hsetF : (msg ++ calculate_crc msg).set j v = msg.set j v ++ calculate_crc msg :=
        List.set_append_left j v hcase
      rw [hsetF, verify_crc]
      have hlenG : (msg.set j v ++ calculate_crc msg).length = msg.length + 2 := by
        simp [hcl]
      rw [if_neg (by omega)]
      have hsub : (msg.set j v ++ calculate_crc msg).length - 2 = msg.length := by omega
      have hlenset : (msg.set j v).length = msg.length := by simp
      rw [hsub, List.take_left' hlenset, List.drop_left' hlenset]
      have hwne : crcWord (msg.set j v) ≠ crcWord msg := by
        apply crcWord_set_ne msg hbytes16 j hcase v (by omega)
        rw [hv']
        exact flip_ne _ k
      have hcne : calculate_crc msg ≠ calculate_crc (msg.set j v) := by
        intro hcontra
        apply hwne
        have hsetb : ∀ b ∈ msg.set j v, b < 65536 := by
          intro b hb
          rcases List.mem_or_eq_of_mem_set hb with hmem | hbeq
          · exact hbytes16 b hmem
          · omega
        exact (calculate_crc_ne_of_word_ne (msg.set j v) msg
          (fun hw => hwne hw) (crcWord_lt _ hsetb) (crcWord_lt _ hbytes16)) hcontra.symm |>.elim
      simp [hcne]
    · -- the flipped bit is in the two checksum bytes
      have hjc : j - msg.length < (calculate_crc msg).length := by omega
      have hgj : (msg ++ calculate_crc msg)[j] = (calculate_crc msg)[j - msg.length] :=
        List.getElem_append_right hcase
      set v := (msg ++ calculate_crc msg)[j] ^^^ (1 <<< k) with hv
      have hsetF : (msg ++ calculate_crc msg).set j v
          = msg ++ (calculate_crc msg).set (j - msg.length) v :=
        List.set_append_right j v hcase
      rw [hsetF, verify_crc]
      have hlenset : ((calculate_crc msg).set (j - msg.length) v).length = 2 := by
        simp [hcl]
      rw [if_neg (by simp [hlenset]; omega)]
      have hsub : (msg ++ (calculate_crc msg).set (j - msg.length) v).length - 2
          = msg.length := by simp [hlenset]
      rw [hsub, List.take_left, List.drop_left]
      have hne : (calculate_crc msg).set (j - msg.length) v ≠ calculate_crc msg := by
        intro hcontra
        have hget : ((calculate_crc msg).set (j - msg.length) v)[j - msg.length]?
            = (calculate_crc msg)[j - msg.length]? := by rw [hcontra]
        rw [List.getElem?_set_self hjc, List.getElem?_eq_getElem hjc] at hget
        have hval : v = (calculate_crc msg)[j - msg.length] := Option.some.inj hget
        rw [hv, hgj] at hval
        exact flip_ne _ k hval
      simp [hne]

theorem crc_roundtrip_and_bit_flip_witness :
    verify_crc ([80, 3] ++ calculate_crc [80, 3]) = true ∧
    verify_crc (([80, 3] ++ calculate_crc [80, 3]).set 0
      (([80, 3] ++ calculate_crc [80, 3])[0] ^^^ (1 <<< 0))) = false :=
  crc_roundtrip_and_bit_flip [80, 3] (by decide) (by decide) 0 0 (by decide) (by decide)

/-- C5 counterexample to the unrestricted quantification: for the empty
message the frame is just the two CRC bytes, and `verify_crc` rejects any
frame shorter than 3 bytes, so `m ++ calculate_crc m` does not pass
verification for every message `m`. -/
theorem crc_empty_message_counterexample :
    verify_crc ([] ++ calculate_crc []) = false := by decide

/-- Outcome of the response-validation path of ModbusRTU.read_registers. -/
inductive ReadResult where
  | noResponse
  | crcFailed
  | ok (data : List Nat)
deriving DecidableEq

/-- ModbusRTU.read_registers, response-validation path: a missing/empty
response yields an error, a CRC failure yields an error, and otherwise the
data region `response[3:-2]` is returned. No check of the total length or
of the embedded byte-count field against the requested register count is
performed. -/
def read_registers_validate (response : List Nat) : ReadResult :=
  if response.length = 0 then .noResponse
  else if verify_crc response = false then .crcFailed
  else .ok ((response.take (response.length - 2)).drop 3)

/-- C4 (amended): the validation path of `read_registers` accepts exactly
the non-empty responses that pass `verify_crc` (trailing two bytes equal
the CRC recomputed over the rest); checksum disagreements and empty
responses are rejected, but no length or byte-count validation against the
requested count occurs, and an accepted response yields the byte region
`response[3:-2]`. -/
theorem read_registers_validation (response : List Nat) :
    (read_registers_validate response = .noResponse ↔ response = []) ∧
    (response ≠ [] → verify_crc response = false →
      read_registers_validate response = .crcFailed) ∧
    (response ≠ [] → verify_crc response = true →
      read_registers_validate response
        = .ok ((response.take (response.length - 2)).drop 3)) := by
  refine ⟨?_, ?_, ?_⟩
  · constructor
    · intro h
      rw [read_registers_validate] at h
      by_cases hz : response.length = 0
      · exact List.length_eq_zero.mp hz
      · rw [if_neg hz] at h
        by_cases hv : verify_crc response = false
        · rw [if_pos hv] at h
          exact absurd h (by simp)
        · rw [if_neg hv] at h
          exact absurd h (by simp)
    · intro h
      subst h
      rw [read_registers_validate]
      simp
  · intro hne hv
    rw [read_registers_validate, if_neg (by simp [hne]), if_pos hv]
  · intro hne hv
    rw [read_registers_validate, if_neg (by simp [hne]), if_neg (by simp [hv])]

theorem read_registers_validation_witness :
    (read_registers_validate [] = .noResponse ↔ ([] : List Nat) = []) ∧
    (([80] : List Nat) ≠ [] → verify_crc [80] = false →
      read_registers_validate [80] = .crcFailed) ∧
    (([80] : List Nat) ≠ [] → verify_crc [80] = true →
      read_registers_validate [80]
        = .ok ((List.take ([80].length - 2) [80]).drop 3)) :=
  ⟨(read_registers_validation []).1,
   (read_registers_validation [80]).2.1,
   (read_registers_validation [80]).2.2⟩

set_option maxRecDepth 8192 in
/-- C4 counterexample: a 7-byte response with a valid CRC is accepted by
the validation path even when the requested count is 2, for which the claim
demands an exact length of 5 + 2*2 = 9 bytes; the length and the embedded
byte-count field are never compared against the requested count. -/
theorem read_registers_length_unchecked_counterexample :
    read_registers_validate ([80, 3, 2, 0, 1] ++ calculate_crc [80, 3, 2, 0, 1])
      = .ok [0, 1] ∧
    ([80, 3, 2, 0, 1] ++ calculate_crc [80, 3, 2, 0, 1]).length ≠ 5 + 2 * 2 := by
  decide

/-- Reported status of one axis in AnomalyDetector.detect_anomaly. -/
inductive AxisStatus where
  | normal
  | warning
  | anomaly
deriving DecidableEq

/-- Per-axis debounce/hysteresis state kept in AnomalyDetector.state_tracker. -/
structure AxisTracker where
  warning_streak : Nat
  critical_streak : Nat
  last_state : AxisStatus
deriving DecidableEq

/-- The tracker installed by `state_tracker.setdefault(axis, ...)`: zero
streaks and last_state normal. -/
def initTracker : AxisTracker := ⟨0, 0, .normal⟩

/-- Raw severity of the evaluated metric value against the thresholds
(detect_anomaly: `> critical` gives anomaly, else `> warning` gives
warning, else normal; this is the comparison used both for the windowed
RMS metric and for the absolute current value in the fallback branch). -/
def rawSeverity (warning_thr critical_thr metric : ℚ) : AxisStatus :=
  if metric > critical_thr then .anomaly
  else if metric > warning_thr then .warning
  else .normal

/-- The hysteresis block of detect_anomaly: a state that has gone up comes
down only after the metric falls below `threshold * hysteresis_ratio`. -/
def applyHysteresis (hysteresis_ratio warning_thr critical_thr metric : ℚ)
    (last : AxisStatus) (raw : AxisStatus) : AxisStatus :=
  if last = .anomaly ∧ metric ≥ critical_thr * hysteresis_ratio then .anomaly
  else if last = .warning ∧ metric ≥ warning_thr * hysteresis_ratio then
    (if raw = .anomaly then raw else .warning)
  else raw

/-- The debounce block of detect_anomaly: a critical reading increments
both streaks, a warning-only reading resets the critical streak and
increments the warning streak, and a normal reading resets both. -/
def updateStreaks (t : AxisTracker) (raw : AxisStatus) : AxisTracker :=
  match raw with
  | .anomaly => { t with critical_streak := t.critical_streak + 1,
                         warning_streak := t.warning_streak + 1 }
  | .warning => { t with critical_streak := 0,
                         warning_streak := t.warning_streak + 1 }
  | .normal => { t with critical_streak := 0, warning_streak := 0 }

/-- The promotion block of detect_anomaly: a status is confirmed only once
the corresponding streak reaches min_consecutive. -/
def confirmedStatus (min_consecutive : Nat) (t : AxisTracker) : AxisStatus :=
  if t.critical_streak ≥ min_consecutive then .anomaly
  else if t.warning_streak ≥ min_consecutive then .warning
  else .normal

/-- One per-axis evaluation tick of AnomalyDetector.detect_anomaly for one
evaluated metric value: raw severity, then hysteresis, then streak update,
then confirmation; returns the emitted status and the updated tracker. -/
def detect_axis_step (min_consecutive : Nat)
    (hysteresis_ratio warning_thr critical_thr metric : ℚ)
    (t : AxisTracker) : AxisStatus × AxisTracker :=
  let raw := applyHysteresis hysteresis_ratio warning_thr critical_thr metric
    t.last_state (rawSeverity warning_thr critical_thr metric)
  let t' := updateStreaks t raw
  let status := confirmedStatus min_consecutive t'
  (status, { t' with last_state := status })

/-- Folding a sequence of evaluation ticks over the tracker state. -/
def detect_axis_iter (min_consecutive : Nat)
    (hysteresis_ratio warning_thr critical_thr : ℚ)
    (metrics : List ℚ) (t : AxisTracker) : AxisTracker :=
  metrics.foldl
    (fun s m => (detect_axis_step min_consecutive hysteresis_ratio warning_thr critical_thr m s).2) t

/-- C1: with min_consecutive = 3, from the initial tracker, three ticks
whose metric exceeds the critical threshold report statuses that are not
anomaly on ticks 1 and 2 and anomaly exactly on tick 3 (the reported status
passes through the promotion gate, so the emitted value is normal on the
first two ticks), and a fourth tick whose metric drops below critical but
stays at or above critical * hysteresis_ratio keeps the status anomaly. -/
theorem anomaly_debounce_hysteresis (hr warn crit m₁ m₂ m₃ m₄ : ℚ)
    (h₁ : m₁ > crit) (h₂ : m₂ > crit) (h₃ : m₃ > crit)
    (h₄lo : m₄ ≥ crit * hr) (h₄hi : m₄ < crit) :
    (detect_axis_step 3 hr warn crit m₁ initTracker).1 ≠ .anomaly ∧
    (detect_axis_step 3 hr warn crit m₂
      (detect_axis_iter 3 hr warn crit [m₁] initTracker)).1 ≠ .anomaly ∧
    (detect_axis_step 3 hr warn crit m₃
      (detect_axis_iter 3 hr warn crit [m₁, m₂] initTracker)).1 = .anomaly ∧
    (detect_axis_step 3 hr warn crit m₄
      (detect_axis_iter 3 hr warn crit [m₁, m₂, m₃] initTracker)).1 = .anomaly := by
  have e₁ : detect_axis_step 3 hr warn crit m₁ initTracker
      = (.normal, ⟨1, 1, .normal⟩) := by
    simp [detect_axis_step, rawSeverity, applyHysteresis, updateStreaks,
      confirmedStatus, initTracker, h₁]
  have e₂ : detect_axis_step 3 hr warn crit m₂ (⟨1, 1, .normal⟩ : AxisTracker)
      = (.normal, ⟨2, 2, .normal⟩) := by
    simp [detect_axis_step, rawSeverity, applyHysteresis, updateStreaks,
      confirmedStatus, h₂]
  have e₃ : detect_axis_step 3 hr warn crit m₃ (⟨2, 2, .normal⟩ : AxisTracker)
      = (.anomaly, ⟨3, 3, .anomaly⟩) := by
    simp [detect_axis_step, rawSeverity, applyHysteresis, updateStreaks,
      confirmedStatus, h₃]
  have e₄ : detect_axis_step 3 hr warn crit m₄ (⟨3, 3, .anomaly⟩ : AxisTracker)
      = (.anomaly, ⟨4, 4, .anomaly⟩) := by
    simp [detect_axis_step, rawSeverity, applyHysteresis, updateStreaks,
      confirmedStatus, h₄lo]
  have i₁ : detect_axis_iter 3 hr warn crit [m₁] initTracker
      = (⟨1, 1, .normal⟩ : AxisTracker) := by
    simp [detect_axis_iter, e₁]
  have i₂ : detect_axis_iter 3 hr warn crit [m₁, m₂] initTracker
      = (⟨2, 2, .normal⟩ : AxisTracker) := by
    simp [detect_axis_iter, e₁, e₂]
  have i₃ : detect_axis_iter 3 hr warn crit [m₁, m₂, m₃] initTracker
      = (⟨3, 3, .anomaly⟩ : AxisTracker) := by
    simp [detect_axis_iter, e₁, e₂, e₃]
  rw [i₁, i₂, i₃, e₁, e₂, e₃, e₄]
  refine ⟨by simp, by simp, rfl, rfl⟩

theorem anomaly_debounce_hysteresis_witness :
    (detect_axis_step 3 (9/10) 1 2 3 initTracker).1 ≠ .anomaly ∧
    (detect_axis_step 3 (9/10) 1 2 3
      (detect_axis_iter 3 (9/10) 1 2 [3] initTracker)).1 ≠ .anomaly ∧
    (detect_axis_step 3 (9/10) 1 2 3
      (detect_axis_iter 3 (9/10) 1 2 [3, 3] initTracker)).1 = .anomaly ∧
    (detect_axis_step 3 (9/10) 1 2 (19/10)
      (detect_axis_iter 3 (9/10) 1 2 [3, 3, 3] initTracker)).1 = .anomaly :=
  anomaly_debounce_hysteresis (9/10) 1 2 3 3 3 (19/10)
    (by norm_num) (by norm_num) (by norm_num) (by norm_num) (by norm_num)

theorem updateStreaks_mono (t : AxisTracker) (raw : AxisStatus)
    (h : t.critical_streak ≤ t.warning_streak) :
    (updateStreaks t raw).critical_streak ≤ (updateStreaks t raw).warning_streak := by
  cases raw <;> simp [updateStreaks] <;> omega

theorem confirmedStatus_anomaly (minc : Nat) (t : AxisTracker)
    (h : confirmedStatus minc t = .anomaly) : minc ≤ t.critical_streak := by
  by_cases hc : t.critical_streak ≥ minc
  · exact hc
  · exfalso
    rw [confirmedStatus, if_neg hc] at h
    by_cases hw : t.warning_streak ≥ minc
    · rw [if_pos hw] at h
      exact absurd h (by simp)
    · rw [if_neg hw] at h
      exact absurd h (by simp)

theorem detect_axis_iter_mono (minc : Nat) (hr warn crit : ℚ) (metrics : List ℚ) :
    ∀ t : AxisTracker, t.critical_streak ≤ t.warning_streak →
      (detect_axis_iter minc hr warn crit metrics t).critical_streak
        ≤ (detect_axis_iter minc hr warn crit metrics t).warning_streak := by
  induction metrics with
  | nil => intro t h; simpa [detect_axis_iter] using h
  | cons m rest ih =>
      intro t h
      have hstep : (detect_axis_step minc hr warn crit m t).2.critical_streak
          ≤ (detect_axis_step minc hr warn crit m t).2.warning_streak := by
        simp only [detect_axis_step]
        exact updateStreaks_mono t _ h
      simpa [detect_axis_iter, List.foldl_cons] using
        ih (detect_axis_step minc hr warn crit m t).2 hstep

/-- C9: every evaluation tick preserves the per-axis invariant
warning_streak ≥ critical_streak, the invariant holds after any run from
the all-zero initial tracker, and an anomaly status is emitted on a tick
only when the critical streak has reached min_consecutive on that tick. -/
theorem tracker_streak_invariant (minc : Nat) (hr warn crit : ℚ) :
    (∀ (t : AxisTracker) (metric : ℚ), t.critical_streak ≤ t.warning_streak →
      (detect_axis_step minc hr warn crit metric t).2.critical_streak
        ≤ (detect_axis_step minc hr warn crit metric t).2.warning_streak) ∧
    (∀ (t : AxisTracker) (metric : ℚ),
      (detect_axis_step minc hr warn crit metric t).1 = .anomaly →
        minc ≤ (detect_axis_step minc hr warn crit metric t).2.critical_streak) ∧
    (∀ metrics : List ℚ,
      (detect_axis_iter minc hr warn crit metrics initTracker).critical_streak
        ≤ (detect_axis_iter minc hr warn crit metrics initTracker).warning_streak) := by
  refine ⟨?_, ?_, ?_⟩
  · intro t metric h
    simp only [detect_axis_step]
    exact updateStreaks_mono t _ h
  · intro t metric h
    simp only [detect_axis_step] at h ⊢
    exact confirmedStatus_anomaly minc _ h
  · intro metrics
    exact detect_axis_iter_mono minc hr warn crit metrics initTracker (by simp [initTracker])

theorem tracker_streak_invariant_witness :
    (detect_axis_step 2 (9/10) 1 2 5 initTracker).2.critical_streak
      ≤ (detect_axis_step 2 (9/10) 1 2 5 initTracker).2.warning_streak ∧
    (detect_axis_iter 2 (9/10) 1 2 [5, 5, 0] initTracker).critical_streak
      ≤ (detect_axis_iter 2 (9/10) 1 2 [5, 5, 0] initTracker).warning_streak := by
  have h := tracker_streak_invariant 2 (9/10) 1 2
  exact ⟨h.1 initTracker 5 (by simp [initTracker]), h.2.2 [5, 5, 0]⟩

/-- One sensor sample (sensor_communication.py SensorData), numpy floats
idealized as reals. The hx/hy/hz frequency fields play no role in the
verified code paths and are omitted. -/
structure SensorData where
  ax : ℝ
  ay : ℝ
  az : ℝ
  vx : ℝ
  vy : ℝ
  vz : ℝ
  dx : ℝ
  dy : ℝ
  dz : ℝ
  temp : ℝ
  timestamp : ℝ

/-- Environment outcome of one polling cycle of
DataCollector._collect_data_loop: the sensor reports disconnected, a read
succeeds with a sample, a read returns nothing, or the cycle body raises
an exception (caught by the loop's except clause). -/
inductive CycleInput where
  | disconnected
  | readOk (d : SensorData)
  | readFail
  | raiseExc

/-- Observable state of the collection loop: counters, the sample buffer,
and how many times each callback has been invoked. `exited` records that
the loop broke out via the connection-lost path. -/
structure LoopState where
  consecutive_errors : Nat
  total_readings : Nat
  failed_readings : Nat
  buffer : List SensorData
  data_events : Nat
  error_events : Nat
  conn_lost_events : Nat
  exited : Bool

def initLoopState : LoopState := ⟨0, 0, 0, [], 0, 0, 0, false⟩

/-- The hard-coded threshold in _collect_data_loop. -/
def max_consecutive_errors : Nat := 5

/-- One iteration of the body of _collect_data_loop. Only the
disconnected branch tests the threshold and breaks; a failed read or a
caught exception merely increments the counters and invokes on_error. -/
def collectStep (bufSize : Nat) (s : LoopState) : CycleInput → LoopState
  | .disconnected =>
      let errs := s.consecutive_errors + 1
      if errs ≥ max_consecutive_errors then
        { s with consecutive_errors := errs,
                 conn_lost_events := s.conn_lost_events + 1, exited := true }
      else { s with consecutive_errors := errs }
  | .readOk d =>
      { s with buffer := DataBuffer.add bufSize s.buffer d,
               data_events := s.data_events + 1,
               total_readings := s.total_readings + 1,
               consecutive_errors := 0 }
  | .readFail =>
      { s with consecutive_errors := s.consecutive_errors + 1,
               failed_readings := s.failed_readings + 1,
               error_events := s.error_events + 1 }
  | .raiseExc =>
      { s with consecutive_errors := s.consecutive_errors + 1,
               error_events := s.error_events + 1 }

/-- The polling loop over a finite schedule of cycle outcomes (the
schedule length models when stop_event ends the session); the loop stops
consuming inputs once it breaks out. -/
def collectLoop (bufSize : Nat) (inputs : List CycleInput) (s : LoopState) : LoopState :=
  match inputs with
  | [] => s
  | i :: rest =>
      let s' := collectStep bufSize s i
      if s'.exited then s' else collectLoop bufSize rest s'

theorem collectStep_not_fatal (bufSize : Nat) (s : LoopState) (i : CycleInput)
    (hi : i ≠ .disconnected) :
    (collectStep bufSize s i).exited = s.exited ∧
    (collectStep bufSize s i).conn_lost_events = s.conn_lost_events := by
  cases i with
  | disconnected => exact absurd rfl hi
  | readOk d => simp [collectStep]
  | readFail => simp [collectStep]
  | raiseExc => simp [collectStep]

theorem collectLoop_connlost_once (bufSize : Nat) :
    ∀ (inputs : List CycleInput) (s : LoopState), s.exited = false →
      s.conn_lost_events = 0 →
      (collectLoop bufSize inputs s).conn_lost_events
        = (if (collectLoop bufSize inputs s).exited then 1 else 0) := by
  intro inputs
  induction inputs with
  | nil =>
      intro s he hc
      simp [collectLoop, he, hc]
  | cons i rest ih =>
      intro s he hc
      rw [collectLoop]
      by_cases hex : (collectStep bufSize s i).exited
      · rw [if_pos hex]
        cases i with
        | disconnected =>
            rw [collectStep] at hex ⊢
            by_cases ht : s.consecutive_errors + 1 ≥ max_consecutive_errors
            · simp [ht, hc]
            · simp [ht] at hex
              exact absurd hex (by simp [he])
        | readOk d => rw [collectStep] at hex; exact absurd hex (by simp [he])
        | readFail => rw [collectStep] at hex; exact absurd hex (by simp [he])
        | raiseExc => rw [collectStep] at hex; exact absurd hex (by simp [he])
      · rw [if_neg hex]
        apply ih _ (by simpa using hex)
        cases i with
        | disconnected =>
            rw [collectStep] at hex ⊢
            by_cases ht : s.consecutive_errors + 1 ≥ max_consecutive_errors
            · simp [ht] at hex
            · simp [ht, hc]
        | readOk d => simp [collectStep, hc]
        | readFail => simp [collectStep, hc]
        | raiseExc => simp [collectStep, hc]

theorem collectLoop_no_disconnect_no_exit (bufSize : Nat) :
    ∀ (inputs : List CycleInput) (s : LoopState),
      (∀ i ∈ inputs, i ≠ .disconnected) → s.exited = false →
      (collectLoop bufSize inputs s).exited = false := by
  intro inputs
  induction inputs with
  | nil => intro s _ he; simpa [collectLoop] using he
  | cons i rest ih =>
      intro s hall he
      have hi : i ≠ .disconnected := hall i (by simp)
      have hstep := (collectStep_not_fatal bufSize s i hi).1
      rw [collectLoop]
      have hex : (collectStep bufSize s i).exited = false := by rw [hstep, he]
      rw [if_neg (by simp [hex])]
      exact ih _ (fun j hj => hall j (by simp [hj])) hex

/-- C2 (amended): sustained disconnection is the one session-fatal
condition: a disconnected cycle that brings the consecutive-error counter
to max_consecutive_errors invokes the connection-lost callback and exits,
and on any run from the initial state the connection-lost callback count
is 1 when the loop has exited and 0 otherwise (invoked exactly once, only
on the fatal exit). Failing reads and caught exceptions only increment the
failure counters and invoke the error callback, and a run containing no
disconnected cycle never exits, no matter how many failures accumulate. -/
theorem collect_loop_failure_semantics (bufSize : Nat) :
    (∀ inputs : List CycleInput,
      (collectLoop bufSize inputs initLoopState).conn_lost_events
        = (if (collectLoop bufSize inputs initLoopState).exited then 1 else 0)) ∧
    (∀ inputs : List CycleInput, (∀ i ∈ inputs, i ≠ .disconnected) →
      (collectLoop bufSize inputs initLoopState).exited = false ∧
      (collectLoop bufSize inputs initLoopState).conn_lost_events = 0) ∧
    (∀ s : LoopState,
      (collectStep bufSize s .readFail).exited = s.exited ∧
      (collectStep bufSize s .readFail).conn_lost_events = s.conn_lost_events ∧
      (collectStep bufSize s .readFail).consecutive_errors = s.consecutive_errors + 1 ∧
      (collectStep bufSize s .readFail).failed_readings = s.failed_readings + 1 ∧
      (collectStep bufSize s .readFail).error_events = s.error_events + 1) ∧
    (∀ s : LoopState, max_consecutive_errors ≤ s.consecutive_errors + 1 →
      (collectStep bufSize s .disconnected).exited = true ∧
      (collectStep bufSize s .disconnected).conn_lost_events
        = s.conn_lost_events + 1) := by
  refine ⟨?_, ?_, ?_, ?_⟩
  · intro inputs
    exact collectLoop_connlost_once bufSize inputs initLoopState rfl rfl
  · intro inputs hall
    have hexit := collectLoop_no_disconnect_no_exit bufSize inputs initLoopState hall rfl
    have hcl := collectLoop_connlost_once bufSize inputs initLoopState rfl rfl
    rw [hexit] at hcl
    simpa [hexit] using hcl
  · intro s
    simp [collectStep]
  · intro s ht
    simp [collectStep, ht]

theorem collect_loop_failure_semantics_witness :
    (collectLoop 1000 [CycleInput.readFail, CycleInput.raiseExc] initLoopState).conn_lost_events
      = (if (collectLoop 1000 [CycleInput.readFail, CycleInput.raiseExc] initLoopState).exited
          then 1 else 0) ∧
    (collectLoop 1000 [CycleInput.readFail, CycleInput.raiseExc] initLoopState).exited = false ∧
    (collectLoop 1000 [CycleInput.readFail, CycleInput.raiseExc] initLoopState).conn_lost_events = 0 ∧
    (collectStep 1000 initLoopState .readFail).consecutive_errors = 1 ∧
    (collectStep 1000 { initLoopState with consecutive_errors := 4 }
      .disconnected).exited = true := by
  have h := collect_loop_failure_semantics 1000
  have h2 := h.2.1 [CycleInput.readFail, CycleInput.raiseExc] (by
    intro i hi
    rcases List.mem_cons.mp hi with hcase | hcase
    · subst hcase; exact fun hcon => CycleInput.noConfusion hcon
    · rcases List.mem_cons.mp hcase with hcase2 | hcase2
      · subst hcase2; exact fun hcon => CycleInput.noConfusion hcon
      · simp at hcase2)
  refine ⟨h.1 [CycleInput.readFail, CycleInput.raiseExc], h2.1, h2.2, ?_, ?_⟩
  · have h3 := (h.2.2.1 initLoopState).2.2.1
    simpa [initLoopState] using h3
  · have h4 := (h.2.2.2 { initLoopState with consecutive_errors := 4 }
      (by simp [initLoopState, max_consecutive_errors])).1
    exact h4

/-- C2 counterexample: six consecutive failing read cycles (the sensor
still reports connected) exceed max_consecutive_errors = 5, yet the loop
does not exit and the connection-lost callback is never invoked — only the
disconnected branch tests the threshold, so sustained read failure is not
fatal to the session as the claim states. -/
theorem collect_loop_read_failures_not_fatal_counterexample :
    (collectLoop 1000 (List.replicate 6 .readFail) initLoopState).exited = false ∧
    (collectLoop 1000 (List.replicate 6 .readFail) initLoopState).conn_lost_events = 0 ∧
    max_consecutive_errors < 6 := by
  refine ⟨rfl, rfl, by decide⟩

noncomputable section

/-- Arithmetic mean, `np.mean` (empty input gives 0/0 = 0 under real
division by zero). -/
def meanOf (l : List ℝ) : ℝ := l.sum / l.length

/-- Population variance, `np.var`. -/
def varianceOf (l : List ℝ) : ℝ := ((l.map (fun v => (v - meanOf l) ^ 2)).sum) / l.length

/-- Root mean square, `np.sqrt(np.mean(values ** 2))`. -/
def rmsOf (l : List ℝ) : ℝ := Real.sqrt ((l.map (fun v => v ^ 2)).sum / l.length)

/-- Standard deviation, `np.std`. -/
def stdOf (l : List ℝ) : ℝ := Real.sqrt (varianceOf l)

/-- Peak value, `np.max(np.abs(values))` (0 for the empty list, which the
caller never passes to np.max). -/
def peakOf (l : List ℝ) : ℝ := ((l.map (fun v => |v|)).max?).getD 0

def minOf (l : List ℝ) : ℝ := (l.min?).getD 0

def maxOf (l : List ℝ) : ℝ := (l.max?).getD 0

/-- The per-axis feature record of calculate_time_domain_features. Python
returns a dict; the empty-input dict omits the kurtosis key and hf_energy
is only added for acceleration axes, but every consumer reads absent keys
via `.get(key, 0)`, so absent keys are modelled as the field value 0. -/
structure Features where
  rms : ℝ
  peak : ℝ
  mean : ℝ
  std : ℝ
  min : ℝ
  max : ℝ
  crest_factor : ℝ
  kurtosis : ℝ
  hf_energy : ℝ

/-- BaselineCalculator.calculate_time_domain_features: RMS, peak, mean,
std, min, max, crest factor (0 when rms is 0) and kurtosis (0 when the
variance is 0); an empty input yields the all-zero record. -/
def calculate_time_domain_features (values : List ℝ) : Features :=
  if values = [] then ⟨0, 0, 0, 0, 0, 0, 0, 0, 0⟩
  else
    { rms := rmsOf values
      peak := peakOf values
      mean := meanOf values
      std := stdOf values
      min := minOf values
      max := maxOf values
      crest_factor := if rmsOf values > 0 then peakOf values / rmsOf values else 0
      kurtosis := if varianceOf values > 0 then
          ((values.map (fun v => (v - meanOf values) ^ 4)).sum / values.length)
            / (varianceOf values) ^ 2
        else 0
      hf_energy := 0 }

/-- BaselineCalculator._compute_sample_rate: (n-1)/(t_last - t_first),
0 when fewer than 2 samples or non-increasing timestamps. -/
def compute_sample_rate (buf : List SensorData) : ℝ :=
  match buf with
  | [] => 0
  | [_] => 0
  | d :: rest =>
      let t0 := d.timestamp
      let t1 := ((d :: rest).getLast (by simp)).timestamp
      if t1 ≤ t0 then 0 else (((d :: rest).length - 1 : ℕ) : ℝ) / (t1 - t0)

/-- Bin k of `np.fft.rfft`(x): the discrete Fourier transform
sum of x_j * exp(-2*pi*i*j*k/n). -/
def rfftBin (x : List ℝ) (k : Nat) : ℂ :=
  ∑ j in Finset.range x.length,
    ((x.getD j 0 : ℝ) : ℂ)
      * Complex.exp (-(2 * (Real.pi : ℂ) * Complex.I * j * k) / x.length)

/-- BaselineCalculator._high_freq_energy (and the identical
AnomalyDetector._high_freq_energy), fmax = None path: returns 0 for an
empty input, non-positive sample rate, sample rate below 2*fmin, fewer
than 4 samples, or an empty frequency mask; otherwise the mean-removed
spectrum energy at bins with frequency at least fmin, normalized by the
sample count. -/
def high_freq_energy (values : List ℝ) (sample_rate fmin : ℝ) : ℝ :=
  if values = [] ∨ sample_rate ≤ 0 ∨ sample_rate < 2 * fmin then 0
  else if values.length < 4 then 0
  else
    let n := values.length
    let centered := values.map (fun v => v - meanOf values)
    let bins := (Finset.range (n / 2 + 1)).filter
      (fun k : ℕ => fmin ≤ (k : ℝ) * sample_rate / (n : ℝ))
    if bins = ∅ then 0
    else (∑ k in bins, Complex.abs (rfftBin centered k) ^ 2) / (n : ℝ)

/-- The ten axes of the baseline dict, in its iteration order. -/
inductive Axis where
  | vx | vy | vz | dx | dy | dz | ax | ay | az | temp
deriving DecidableEq

def axisValue (a : Axis) (d : SensorData) : ℝ :=
  match a with
  | .vx => d.vx
  | .vy => d.vy
  | .vz => d.vz
  | .dx => d.dx
  | .dy => d.dy
  | .dz => d.dz
  | .ax => d.ax
  | .ay => d.ay
  | .az => d.az
  | .temp => d.temp

/-- The per-axis value series extracted into axes_data. -/
def axisValues (a : Axis) (buf : List SensorData) : List ℝ := buf.map (axisValue a)

def axesList : List Axis := [.vx, .vy, .vz, .dx, .dy, .dz, .ax, .ay, .az, .temp]

def accelAxes : List Axis := [.ax, .ay, .az]

/-- critical_axes in calculate_baseline: VY and VZ must carry variance. -/
def critical_axes : List Axis := [.vy, .vz]

/-- The features record stored for one axis by the calculate_baseline loop
(hf_energy is added for the acceleration axes only). -/
def axisFeatures (buf : List SensorData) (sample_rate : ℝ) (a : Axis) : Features :=
  let f := calculate_time_domain_features (axisValues a buf)
  if a ∈ accelAxes then
    { f with hf_energy := high_freq_energy (axisValues a buf) sample_rate 2000 }
  else f

/-- The number of axes whose stored std feature is 0. -/
def zero_std_axis_count (buf : List SensorData) : Nat :=
  (axesList.filter
    (fun a => (axisFeatures buf (compute_sample_rate buf) a).std = 0)).length

/-- The number of critical axes (VY, VZ) whose stored std feature is 0. -/
def critical_zero_count (buf : List SensorData) : Nat :=
  (critical_axes.filter
    (fun a => (axisFeatures buf (compute_sample_rate buf) a).std = 0)).length

/-- Outcome of BaselineCalculator.calculate_baseline: the returned bool
together with the distinct last_error message set on each early return. -/
inductive BaselineResult where
  | ok
  | insufficientData
  | noVibrationSignal
  | tooManyFlatAxes
deriving DecidableEq

/-- BaselineCalculator.calculate_baseline. The stored baseline dict is a
map from axis to Option Features (`none` models the initial per-axis empty
dicts). The per-axis loop assigns self.baseline[axis] BEFORE the two
validity checks that follow it, so both post-loop rejections return the
already-mutated store. -/
def calculate_baseline (st : Axis → Option Features) (buf : List SensorData)
    (min_samples max_zero_std_axes : Nat) :
    BaselineResult × (Axis → Option Features) :=
  if buf.length < min_samples then (.insufficientData, st)
  else
    let newSt : Axis → Option Features :=
      fun a => some (axisFeatures buf (compute_sample_rate buf) a)
    if critical_zero_count buf ≥ 2 then (.noVibrationSignal, newSt)
    else if zero_std_axis_count buf > max_zero_std_axes then (.tooManyFlatAxes, newSt)
    else (.ok, newSt)

/-- The initial baseline store: every axis maps to the empty dict. -/
def initBaseline : Axis → Option Features := fun _ => none

theorem features_std (v : List ℝ) : (calculate_time_domain_features v).std = stdOf v := by
  by_cases h : v = []
  · subst h
    simp [calculate_time_domain_features, stdOf, varianceOf, meanOf]
  · simp [calculate_time_domain_features, h]

theorem axisFeatures_std (buf : List SensorData) (sr : ℝ) (a : Axis) :
    (axisFeatures buf sr a).std = stdOf (axisValues a buf) := by
  rw [axisFeatures]
  by_cases h : a ∈ accelAxes
  · simp [h, features_std]
  · simp [h, features_std]

theorem critical_zero_iff (buf : List SensorData) :
    critical_zero_count buf ≥ 2 ↔
      stdOf (axisValues .vy buf) = 0 ∧ stdOf (axisValues .vz buf) = 0 := by
  rw [critical_zero_count, critical_axes]
  by_cases hy : stdOf (axisValues .vy buf) = 0 <;>
    by_cases hz : stdOf (axisValues .vz buf) = 0 <;>
      simp [List.filter, axisFeatures_std, hy, hz]

/-- C7: calculate_baseline rejects with the insufficient-data error exactly
when fewer than min_samples samples are buffered; given enough samples it
rejects with the no-vibration-signal error exactly when both velocity-Y and
velocity-Z have zero standard deviation, rejects with the too-many-flat-axes
error exactly when the critical axes pass but the number of zero-std axes
exceeds max_zero_std_axes, and succeeds otherwise. -/
theorem baseline_validation_cases (st : Axis → Option Features)
    (buf : List SensorData) (min_samples max_zero_std_axes : Nat) :
    ((calculate_baseline st buf min_samples max_zero_std_axes).1 = .insufficientData ↔
      buf.length < min_samples) ∧
    (min_samples ≤ buf.length →
      (((calculate_baseline st buf min_samples max_zero_std_axes).1 = .noVibrationSignal) ↔
        (stdOf (axisValues .vy buf) = 0 ∧ stdOf (axisValues .vz buf) = 0)) ∧
      (((calculate_baseline st buf min_samples max_zero_std_axes).1 = .tooManyFlatAxes) ↔
        (¬(stdOf (axisValues .vy buf) = 0 ∧ stdOf (axisValues .vz buf) = 0) ∧
          zero_std_axis_count buf > max_zero_std_axes)) ∧
      (((calculate_baseline st buf min_samples max_zero_std_axes).1 = .ok) ↔
        (¬(stdOf (axisValues .vy buf) = 0 ∧ stdOf (axisValues .vz buf) = 0) ∧
          zero_std_axis_count buf ≤ max_zero_std_axes))) := by
  by_cases hlen : buf.length < min_samples
  · constructor
    · simp [calculate_baseline, hlen]
    · intro h
      omega
  · have hcrit := critical_zero_iff buf
    constructor
    · rw [calculate_baseline, if_neg hlen]
      by_cases h1 : critical_zero_count buf ≥ 2
      · simp [h1, hlen]
      · by_cases h2 : zero_std_axis_count buf > max_zero_std_axes
        · simp [h1, h2, hlen]
        · simp [h1, h2, hlen]
    · intro hge
      rw [calculate_baseline, if_neg hlen]
      by_cases h1 : critical_zero_count buf ≥ 2
      · refine ⟨by simp [h1, hcrit.mp h1], ?_, ?_⟩
        · simp [h1, hcrit.mp h1]
        · simp [h1, hcrit.mp h1]
      · have hnc : ¬(stdOf (axisValues .vy buf) = 0 ∧ stdOf (axisValues .vz buf) = 0) :=
          fun hc => h1 (hcrit.mpr hc)
        by_cases h2 : zero_std_axis_count buf > max_zero_std_axes
        · refine ⟨by simp [h1, h2, hnc], by simp [h1, h2, hnc], by simp [h1, h2]⟩
        · refine ⟨by simp [h1, h2, hnc], by simp [h1, h2], by simp [h1, h2, hnc]; omega⟩

theorem stdOf_singleton (x : ℝ) : stdOf [x] = 0 := by
  simp [stdOf, varianceOf, meanOf]

/-- The all-zero sample used as a concrete degenerate buffer. -/
def zeroSample : SensorData := ⟨0, 0, 0, 0, 0, 0, 0, 0, 0, 0, 0⟩

theorem axisValues_zeroSample (a : Axis) : axisValues a [zeroSample] = [0] := by
  cases a <;> simp [axisValues, axisValue, zeroSample]

theorem baseline_validation_cases_witness :
    ((calculate_baseline initBaseline [zeroSample] 3 6).1 = .insufficientData ↔
      ([zeroSample] : List SensorData).length < 3) ∧
    (calculate_baseline initBaseline [zeroSample] 1 6).1 = .noVibrationSignal := by
  constructor
  · exact (baseline_validation_cases initBaseline [zeroSample] 3 6).1
  · have h := ((baseline_validation_cases initBaseline [zeroSample] 1 6).2
      (by simp)).1
    apply h.mpr
    rw [axisValues_zeroSample, axisValues_zeroSample]
    exact ⟨stdOf_singleton 0, stdOf_singleton 0⟩

/-- C3 (amended): calculate_baseline leaves the stored baseline unchanged
only for the insufficient-data rejection; whenever at least min_samples
samples are present the per-axis feature records are stored as the current
baseline regardless of whether the subsequent validity checks reject the
window (the no-vibration-signal and too-many-flat-axes rejections return
with the store already overwritten). -/
theorem baseline_store_semantics (st : Axis → Option Features)
    (buf : List SensorData) (min_samples max_zero_std_axes : Nat) :
    (buf.length < min_samples →
      (calculate_baseline st buf min_samples max_zero_std_axes).2 = st) ∧
    (min_samples ≤ buf.length →
      (calculate_baseline st buf min_samples max_zero_std_axes).2
        = fun a => some (axisFeatures buf (compute_sample_rate buf) a)) := by
  constructor
  · intro h
    rw [calculate_baseline, if_pos h]
  · intro h
    rw [calculate_baseline, if_neg (by omega)]
    by_cases h1 : critical_zero_count buf ≥ 2
    · simp [h1]
    · by_cases h2 : zero_std_axis_count buf > max_zero_std_axes
      · simp [h1, h2]
      · simp [h1, h2]

theorem baseline_store_semantics_witness :
    (calculate_baseline initBaseline [zeroSample] 3 6).2 = initBaseline ∧
    (calculate_baseline initBaseline [zeroSample] 1 6).2
      = fun a => some (axisFeatures [zeroSample] (compute_sample_rate [zeroSample]) a) := by
  constructor
  · exact (baseline_store_semantics initBaseline [zeroSample] 3 6).1 (by simp)
  · exact (baseline_store_semantics initBaseline [zeroSample] 1 6).2 (by simp)

/-- C3 counterexample: a one-sample all-zero buffer with min_samples = 1 is
rejected (no vibration signal), yet the stored baseline is mutated by the
call: the per-axis records were written before the validity checks ran, so
the rejection is not atomic. -/
theorem baseline_mutation_counterexample :
    (calculate_baseline initBaseline [zeroSample] 1 6).1 ≠ .ok ∧
    (calculate_baseline initBaseline [zeroSample] 1 6).2 ≠ initBaseline := by
  have hcrit : critical_zero_count [zeroSample] ≥ 2 := by
    apply (critical_zero_iff [zeroSample]).mpr
    rw [axisValues_zeroSample, axisValues_zeroSample]
    exact ⟨stdOf_singleton 0, stdOf_singleton 0⟩
  constructor
  · rw [calculate_baseline, if_neg (by simp)]
    simp [hcrit]
  · rw [calculate_baseline, if_neg (by simp)]
    rw [if_pos hcrit]
    intro hcontra
    have h := congrFun hcontra Axis.vx
    simp [initBaseline] at h

/-- C8: the feature functions are total and yield defined zeros on
degenerate input: the crest factor is 0 whenever the RMS is 0, the
kurtosis is 0 whenever the variance is 0, and the high-frequency energy is
exactly 0 whenever the input is empty, the sample rate is non-positive or
below 2*fmin, or fewer than 4 samples are given. -/
theorem feature_totality (values : List ℝ) (sample_rate fmin : ℝ) :
    ((calculate_time_domain_features values).rms = 0 →
      (calculate_time_domain_features values).crest_factor = 0) ∧
    (varianceOf values = 0 → (calculate_time_domain_features values).kurtosis = 0) ∧
    (values = [] ∨ sample_rate ≤ 0 ∨ sample_rate < 2 * fmin →
      high_freq_energy values sample_rate fmin = 0) ∧
    (values.length < 4 → high_freq_energy values sample_rate fmin = 0) := by
  refine ⟨?_, ?_, ?_, ?_⟩
  · intro hrms
    by_cases h : values = []
    · simp [calculate_time_domain_features, h]
    · simp [calculate_time_domain_features, h] at hrms ⊢
      rw [hrms]
      simp
  · intro hvar
    by_cases h : values = []
    · simp [calculate_time_domain_features, h]
    · simp [calculate_time_domain_features, h]
      rw [hvar]
      simp
  · intro h
    rw [high_freq_energy, if_pos h]
  · intro h4
    by_cases hg : values = [] ∨ sample_rate ≤ 0 ∨ sample_rate < 2 * fmin
    · rw [high_freq_energy, if_pos hg]
    · rw [high_freq_energy, if_neg hg, if_pos h4]

theorem rmsOf_singleton_zero : rmsOf [(0 : ℝ)] = 0 := by
  simp [rmsOf]

theorem feature_totality_witness :
    (calculate_time_domain_features [(0 : ℝ)]).crest_factor = 0 ∧
    (calculate_time_domain_features [(0 : ℝ)]).kurtosis = 0 ∧
    high_freq_energy [(0 : ℝ)] 1 2000 = 0 := by
  have h := feature_totality [(0 : ℝ)] 1 2000
  refine ⟨?_, ?_, ?_⟩
  · apply h.1
    simp [calculate_time_domain_features, rmsOf_singleton_zero]
  · apply h.2.1
    simp [varianceOf, meanOf]
  · exact h.2.2.1 (by right; right; norm_num)

end

end VibMon
